import Mathlib

/-!
Verification of the strategy verification and walk-forward backtesting core of
the Atlas pipeline: the static guard rail (src/guard_rail.py), the strategy
execution sandbox and the walk-forward backtesting engine (src/backtester.py).

Shallow embedding conventions:
* Python float values are modelled as rationals; a possibly-NaN float value is
  modelled as an Option value, with none for NaN.  Where the source divides by
  a quantity that can be zero, the model returns none for the resulting
  infinite float; no verified statement distinguishes infinities from NaN.
* np.sqrt, and the square root inside standard deviations, leave the
  rationals, so they are kept as an abstract function sq from rationals to
  rationals supplied as an argument; no verified statement depends on its
  values.
* The Python exec of a submission inside the sandbox namespace is abstracted
  as an ExecOutcome value, a function of the price slice the namespace binds;
  everything after the exec call is embedded from the source.
* The Python ast of a submission is abstracted as the pre-order list of the
  node shapes that the two visitors in guard_rail.py inspect; the parse
  outcome of ast.parse is paired with the raw source as the embedded input.
* Timestamps are natural numbers and the calendar month offsets built with
  pd.DateOffset are modelled as additive span lengths.
* The trade statistics produced by the external vectorbt library (trade
  count, win rate, profit factor) are not part of this repository; they are
  kept abstract as a function argument, and no verified statement depends on
  their values.
-/

unseal Rat.add Rat.mul Rat.sub Rat.inv

namespace Atlas

/-! ## Guard rail: lexical scanning utilities (src/guard_rail.py) -/

/-- Lower-cases a character list; models the effect of re.IGNORECASE on the
purely literal patterns of guard_rail.py. -/
def lowerChars (s : List Char) : List Char := s.map Char.toLower

/-- Tests whether the first list is a leading block of the second list. -/
def leadsWith : List Char → List Char → Bool
  | [], _ => true
  | _ :: _, [] => false
  | p :: ps, c :: cs => p == c && leadsWith ps cs

/-- Tests whether pat occurs as a contiguous block anywhere in the second
list; models re.search for a regex whose source is a literal string. -/
def containsSub (pat : List Char) : List Char → Bool
  | [] => pat.isEmpty
  | c :: cs => leadsWith pat (c :: cs) || containsSub pat cs

/-- The characters matched by the regex whitespace class. -/
def wsChars : List Char := [' ', '\t', '\n', '\r', '\x0b', '\x0c']

/-- Scans for a minus sign after optional whitespace; implements the trailing
part of the negative-shift regex of _check_forward_looking. -/
def minusAfterWs : List Char → Bool
  | [] => false
  | c :: cs => if c == '-' then true else if wsChars.contains c then minusAfterWs cs else false

/-- Models re.search for the forward-looking pattern that matches a shift call
with a negative offset. -/
def shiftNegFound : List Char → Bool
  | [] => false
  | c :: cs =>
    (leadsWith ".shift(".data (c :: cs) && minusAfterWs ((c :: cs).drop 7))
      || shiftNegFound cs

/-! ## Guard rail: the six violation checks -/

/-- The banned lexical patterns of guard_rail.py: each entry pairs the literal
character sequence the regex matches with the regex source text that the
violation message interpolates. -/
def bannedPatternTable : List (List Char × String) :=
  [ (".now()".data, "\\.now\\(\\)"),
    ("time.time()".data, "time\\.time\\(\\)"),
    (".today()".data, "\\.today\\(\\)"),
    ("requests.".data, "requests\\."),
    ("urllib.".data, "urllib\\."),
    ("http".data, "http"),
    ("socket.".data, "socket\\."),
    ("open(".data, "open\\("),
    ("file(".data, "file\\("),
    ("input(".data, "input\\("),
    ("eval(".data, "eval\\("),
    ("exec(".data, "exec\\(") ]

/-- Embeds StaticGuardRail._check_banned_patterns. -/
def check_banned_patterns (code : List Char) : List String :=
  bannedPatternTable.filterMap fun pr =>
    if containsSub pr.1 (lowerChars code) then
      some ("Banned pattern detected: " ++ pr.2)
    else none

/-- The literal forward-looking patterns of _check_forward_looking; the
negative-shift pattern is handled separately by shiftNegFound. -/
def forwardPatternTable : List (List Char × String) :=
  [ ("future".data, "future"),
    ("tomorrow".data, "tomorrow"),
    ("next_".data, "next_"),
    ("lead(".data, "lead\\(") ]

/-- Embeds StaticGuardRail._check_forward_looking. -/
def check_forward_looking (code : List Char) : List String :=
  (if shiftNegFound (lowerChars code) then
      ["Potential forward-looking operation: \\.shift\\(\\s*-"]
    else [])
    ++ forwardPatternTable.filterMap fun pr =>
      if containsSub pr.1 (lowerChars code) then
        some ("Potential forward-looking operation: " ++ pr.2)
      else none

/-- The network patterns of _check_network_operations. -/
def networkPatternTable : List (List Char × String) :=
  [ ("requests.".data, "requests\\."),
    ("urllib.".data, "urllib\\."),
    ("aiohttp.".data, "aiohttp\\."),
    ("socket.".data, "socket\\."),
    ("http.".data, "http\\."),
    ("ftp.".data, "ftp\\."),
    ("smtp.".data, "smtp\\."),
    (".get(".data, "\\.get\\("),
    (".post(".data, "\\.post\\("),
    (".put(".data, "\\.put\\("),
    (".delete(".data, "\\.delete\\("),
    (".download".data, "\\.download"),
    (".fetch".data, "\\.fetch") ]

/-- Embeds StaticGuardRail._check_network_operations. -/
def check_network_operations (code : List Char) : List String :=
  networkPatternTable.filterMap fun pr =>
    if containsSub pr.1 (lowerChars code) then
      some ("Network operation detected: " ++ pr.2)
    else none

/-- Abstraction of the Python ast nodes inspected by the visitors of
guard_rail.py, listed in pre-order traversal order: one imp entry per alias of
an import statement, one impFrom entry per from-import, one callName entry per
call whose function is a bare name (together with the first positional
argument when it is a literal constant, rendered through str), one callAttr
entry per call whose function is an attribute access, and one attrAccess
entry per attribute access on a bare name. -/
inductive PyNode where
  | imp (name : String)
  | impFrom (module : Option String)
  | callName (id : String) (firstStrArg : Option String)
  | callAttr (attr : String)
  | attrAccess (valueId : String) (attr : String)
deriving DecidableEq

/-- The import allow-list of StaticGuardRail. -/
def allowed_libraries : List String := ["pandas", "numpy", "vectorbt", "math", "datetime"]

/-- The local allow-list of module stems inside visit_ImportFrom. -/
def allowed_modules : List String := ["pandas", "numpy", "vectorbt", "math", "datetime"]

/-- String version of leadsWith; models str.startswith. -/
def startsWithStr (pat s : String) : Bool := leadsWith pat.data s.data

/-- Embeds the per-node logic of DangerousVisitor in _check_ast. -/
def astNodeViolations : PyNode → List String
  | .imp n => if allowed_libraries.contains n then [] else ["Banned import: " ++ n]
  | .impFrom none => []
  | .impFrom (some m) =>
    if allowed_libraries.contains m then []
    else if allowed_modules.any (fun mod => startsWithStr mod m) then []
    else ["Banned import from: " ++ m]
  | .callName id _ =>
    if id == "eval" || id == "exec" || id == "input" || id == "__import__" then
      ["Banned function call: " ++ id]
    else []
  | .callAttr a => if a == "now" || a == "today" then ["Banned method call: " ++ a] else []
  | .attrAccess v a =>
    if v == "os" || v == "sys" then ["Banned module access: " ++ v ++ "." ++ a] else []

/-- Embeds StaticGuardRail._check_ast as the concatenated per-node violations
in traversal order. -/
def check_ast (tree : List PyNode) : List String :=
  tree.foldr (fun n acc => astNodeViolations n ++ acc) []

/-- Embeds the per-node logic of FileVisitor in _check_file_operations. -/
def fileNodeViolations : PyNode → List String
  | .callName id (some path) =>
    if (id == "open" || id == "file") && !(startsWithStr "/tmp" path) then
      ["File operation outside /tmp: " ++ path]
    else []
  | _ => []

/-- Embeds StaticGuardRail._check_file_operations. -/
def check_file_operations (tree : List PyNode) : List String :=
  tree.foldr (fun n acc => fileNodeViolations n ++ acc) []

/-! ## Guard rail: the heuristic numeric-bound check -/

def digitOrDot (c : Char) : Bool := c.isDigit || c == '.'

def skipWs (s : List Char) : List Char := s.dropWhile (fun c => wsChars.contains c)

/-- Attempts to match one occurrence of a keyword-number regex (the keyword,
optional whitespace, one separator character from the class, optional
whitespace, then a nonempty captured run of digits and dots) at the head of
the input, returning the capture and the remainder after it. -/
def tryKeyNum (word : List Char) (seps : List Char) (s : List Char) :
    Option (List Char × List Char) :=
  if leadsWith word s then
    match skipWs (s.drop word.length) with
    | [] => none
    | c :: r2 =>
      if seps.contains c then
        let r3 := skipWs r2
        let cap := r3.takeWhile digitOrDot
        if cap.isEmpty then none else some (cap, r3.drop cap.length)
      else none
  else none

/-- Fuel-indexed scanner producing the non-overlapping left-to-right matches
of the keyword-number regex, as re.findall produces them. -/
def scanKeyNum (word : List Char) (seps : List Char) : Nat → List Char → List (List Char)
  | 0, _ => []
  | _ + 1, [] => []
  | fuel + 1, c :: cs =>
    match tryKeyNum word seps (c :: cs) with
    | some (cap, rem) => cap :: scanKeyNum word seps fuel rem
    | none => scanKeyNum word seps fuel cs

def findKeyNum (word : List Char) (seps : List Char) (code : List Char) : List (List Char) :=
  scanKeyNum word seps (code.length + 1) code

/-- Attempts the multiplication-factor regex at the head of the input: an
asterisk, optional whitespace, then either one digit from 3 to 9, or a digit
from 1 to 9 followed by at least one more digit; the regex alternation tries
the single-digit branch first, as Python re does. -/
def tryMul (s : List Char) : Option (List Char × List Char) :=
  match s with
  | '*' :: r1 =>
    match skipWs r1 with
    | [] => none
    | d :: r2 =>
      if 51 ≤ d.toNat ∧ d.toNat ≤ 57 then some ([d], r2)
      else if 49 ≤ d.toNat ∧ d.toNat ≤ 57 then
        let more := r2.takeWhile Char.isDigit
        if more.isEmpty then none else some (d :: more, r2.drop more.length)
      else none
  | _ => none

/-- Fuel-indexed scanner for the multiplication-factor regex. -/
def scanMul : Nat → List Char → List (List Char)
  | 0, _ => []
  | _ + 1, [] => []
  | fuel + 1, c :: cs =>
    match tryMul (c :: cs) with
    | some (cap, rem) => cap :: scanMul fuel rem
    | none => scanMul fuel cs

def findMul (code : List Char) : List (List Char) := scanMul (code.length + 1) code

def digitsVal (ds : List Char) : Nat := ds.foldl (fun a c => a * 10 + (c.toNat - 48)) 0

/-- The value of a captured numeric token holding at most one dot, as Python
float parses it. -/
def capValue (cap : List Char) : ℚ :=
  let intPart := cap.takeWhile (fun c => c != '.')
  let frac := (cap.drop intPart.length).drop 1
  (digitsVal intPart : ℚ) + (digitsVal frac : ℚ) / ((10 : ℚ) ^ frac.length)

/-- Converts the captured tokens to float values, mirroring the numeric
handling of _check_position_sizing: a capture with no digits is skipped
(str.isdigit is false on the empty string), and a capture with two or more
dots makes float raise an uncaught ValueError that aborts the whole check. -/
def capsToVals : List (List Char) → Except String (List ℚ)
  | [] => .ok []
  | cap :: rest =>
    if (cap.filter (fun c => c != '.')).isEmpty then capsToVals rest
    else if 2 ≤ cap.count '.' then .error "ValueError: could not convert string to float"
    else match capsToVals rest with
      | .ok vs => .ok (capValue cap :: vs)
      | .error e => .error e

def max_leverage : ℚ := 2

def max_position_pct : ℚ := 1 / 20

/-- Embeds StaticGuardRail._check_position_sizing. The data argument of the
Python method is never read by its body, so it does not appear here; the
numeric interpolation inside the two messages is elided. -/
def check_position_sizing (code : List Char) : Except String (List String) :=
  let lc := lowerChars code
  let levCaps := findKeyNum "leverage".data ['=', ':'] lc
      ++ findKeyNum "margin".data ['=', ':'] lc
      ++ findMul lc
  let posCaps := findKeyNum "position".data ['>', '='] lc
      ++ findKeyNum "size".data ['>', '='] lc
  match capsToVals levCaps with
  | .error e => .error e
  | .ok levVals =>
    match capsToVals posCaps with
    | .error e => .error e
    | .ok posVals =>
      .ok ((levVals.filterMap fun v =>
              if max_leverage < v then some "Leverage exceeds maximum 2.0x" else none)
        ++ (posVals.filterMap fun v =>
              if max_position_pct < v then some "Position size exceeds maximum 5.0% of ADV"
              else none))

/-! ## Guard rail: the verdict -/

structure Verdict where
  passed : Bool
  errors : List String
deriving DecidableEq

/-- Embeds StaticGuardRail.check_strategy. The submission is supplied as its
raw source together with the outcome of ast.parse (in Python the parse outcome
is a function of the source; the pair is the embedded input), and a flag
recording whether a data frame was passed, since the position-sizing check
runs only in that case. The result is an Except value because the
position-sizing check can raise an uncaught ValueError. -/
def check_strategy (source : List Char) (parsed : Except String (List PyNode))
    (dataProvided : Bool) : Except String Verdict :=
  match parsed with
  | .error e => .ok ⟨false, ["Syntax error: " ++ e]⟩
  | .ok tree =>
    match (if dataProvided then check_position_sizing source else .ok []) with
    | .error e => .error e
    | .ok posViolations =>
      let violations := check_banned_patterns source ++ check_ast tree
        ++ check_forward_looking source ++ posViolations
        ++ check_file_operations tree ++ check_network_operations source
      .ok ⟨violations.isEmpty, violations⟩

/-! ## Sandbox: execute_strategy (src/backtester.py) -/

/-- The value left in the signals binding when the exec terminates: either a
pandas Series (index labels paired with possibly-NaN values) or a raw
sequence that execute_strategy wraps into a Series over the price index. -/
inductive RawSignals where
  | series (entries : List (Nat × Option ℚ))
  | values (vals : List (Option ℚ))

/-- Outcome of the Python exec of a submission inside the sandbox namespace:
the exec either raises with a message, or terminates leaving a namespace in
which the signals binding is absent or holds a value. -/
inductive ExecOutcome where
  | raises (msg : String)
  | env (signals : Option RawSignals)

/-- The single-quote character. -/
def quoteChar : Char := Char.ofNat 39

def missingSignalMsg : String :=
  "Strategy must define " ++ String.mk [quoteChar] ++ "signals" ++ String.mk [quoteChar]
    ++ " variable"

def lengthMismatchMsg : String := "Length of values does not match length of index"

/-- Reindex to the target index with method ffill: each target label takes the
value of the last series entry whose label is at or before it (its own value
on an exact hit), and NaN when there is no such entry.  As pandas requires,
the series index is taken monotonic; duplicate labels, which make pandas
raise, are not modelled since no verified statement involves them. -/
def reindexFfill (entries : List (Nat × Option ℚ)) (target : List Nat) : List (Option ℚ) :=
  target.map fun t => ((entries.filter fun e => e.1 ≤ t).getLast?).bind Prod.snd

/-- Series.fillna(0). -/
def fillnaZero (xs : List (Option ℚ)) : List ℚ := xs.map fun o => o.getD 0

/-- np.clip(x, -1, 1) applied elementwise. -/
def clipUnit (xs : List ℚ) : List ℚ := xs.map fun q => min 1 (max (-1) q)

/-- Embeds WalkForwardBacktester.execute_strategy: everything after the exec
call, namely the missing-binding check, the Series wrapping of a raw value,
the reindex with forward fill, the zero fill and the clamp, together with
the blanket exception handler that re-raises every exception as RuntimeError
with the original message appended to a fixed prefix. -/
def execute_strategy (outcome : ExecOutcome) (priceIndex : List Nat) :
    Except String (List ℚ) :=
  match outcome with
  | .raises m => .error ("Strategy execution failed: " ++ m)
  | .env none => .error ("Strategy execution failed: " ++ missingSignalMsg)
  | .env (some (.values vals)) =>
    if vals.length = priceIndex.length then
      .ok (clipUnit (fillnaZero (reindexFfill (priceIndex.zip vals) priceIndex)))
    else .error ("Strategy execution failed: " ++ lengthMismatchMsg)
  | .env (some (.series entries)) =>
    .ok (clipUnit (fillnaZero (reindexFfill entries priceIndex)))

/-! ## Cost model and per-period returns (src/backtester.py) -/

/-- positions.diff().fillna(0). -/
def diffFillZero (xs : List ℚ) : List ℚ :=
  match xs with
  | [] => []
  | x :: rest => 0 :: List.zipWith (fun cur prev => cur - prev) rest (x :: rest)

/-- Embeds WalkForwardBacktester.calculate_transaction_costs. -/
def calculate_transaction_costs (spread slip : ℚ) (positions prices : List ℚ) : List ℚ :=
  List.zipWith (fun d p => |d| * (spread + slip) * p) (diffFillZero positions) prices

/-- prices.pct_change().fillna(0).  A zero previous price gives an infinite
float in the source; the rational model returns -1 there, and every verified
statement about returns assumes strictly positive prices. -/
def pctChangeFillZero (prices : List ℚ) : List ℚ :=
  match prices with
  | [] => []
  | p :: rest => 0 :: List.zipWith (fun cur prev => cur / prev - 1) rest (p :: rest)

/-- series.shift(1): the first value becomes NaN. -/
def shiftOne (xs : List ℚ) : List (Option ℚ) :=
  match xs with
  | [] => []
  | _ :: _ => none :: xs.dropLast.map some

/-- positions.shift(1) * price_returns, with NaN propagation. -/
def strategyReturns (positions prices : List ℚ) : List (Option ℚ) :=
  List.zipWith (fun o r => o.map fun x => x * r) (shiftOne positions) (pctChangeFillZero prices)

/-- -transaction_costs / prices.shift(1), with NaN propagation; a zero prior
price would give an infinite float, modelled as none. -/
def costReturns (spread slip : ℚ) (positions prices : List ℚ) : List (Option ℚ) :=
  List.zipWith (fun c po => po.bind fun p => if p = 0 then none else some (-(c / p)))
    (calculate_transaction_costs spread slip positions prices) (shiftOne prices)

/-- strategy_returns + cost_returns.fillna(0). -/
def netReturns (spread slip : ℚ) (positions prices : List ℚ) : List (Option ℚ) :=
  List.zipWith (fun so c => so.map fun x => x + c)
    (strategyReturns positions prices)
    (fillnaZero (costReturns spread slip positions prices))

/-! ## Per-period metrics (run_backtest_period) -/

/-- Drops the NaN entries, as the skipna semantics of pandas reductions. -/
def dropNone (xs : List (Option ℚ)) : List ℚ := xs.filterMap id

def meanQ (xs : List ℚ) : ℚ := xs.sum / (xs.length : ℚ)

/-- pandas Series.mean (skipna); NaN when no value remains. -/
def seriesMean (xs : List (Option ℚ)) : Option ℚ :=
  match dropNone xs with
  | [] => none
  | v => some (meanQ v)

/-- Sample variance with ddof 1, the radicand inside pandas Series.std. -/
def sampleVar (xs : List ℚ) : ℚ :=
  (xs.map fun x => (x - meanQ xs) ^ 2).sum / ((xs.length : ℚ) - 1)

/-- pandas Series.std (skipna, ddof 1): NaN when fewer than two values
remain, otherwise the abstract square root sq of the sample variance. -/
def seriesStd (sq : ℚ → ℚ) (xs : List (Option ℚ)) : Option ℚ :=
  let v := dropNone xs
  if v.length ≤ 1 then none else some (sq (sampleVar v))

/-- Series.cumprod with skipna: NaN entries stay NaN and do not enter the
running product. -/
def cumprodSkipna (acc : ℚ) : List (Option ℚ) → List (Option ℚ)
  | [] => []
  | none :: rest => none :: cumprodSkipna acc rest
  | some x :: rest => some (acc * x) :: cumprodSkipna (acc * x) rest

/-- expanding().max() with skipna: entry i is the maximum of the values up to
position i, NaN while no value has appeared yet. -/
def expandingMax (acc : Option ℚ) : List (Option ℚ) → List (Option ℚ)
  | [] => []
  | none :: rest => acc :: expandingMax acc rest
  | some x :: rest =>
    let m := match acc with
      | none => x
      | some a => max a x
    some m :: expandingMax (some m) rest

/-- series.min() with skipna. -/
def seriesMin (xs : List (Option ℚ)) : Option ℚ :=
  match dropNone xs with
  | [] => none
  | y :: ys => some (ys.foldl min y)

/-- positions.diff() without fillna. -/
def diffOpt (xs : List ℚ) : List (Option ℚ) :=
  match xs with
  | [] => []
  | x :: rest => none :: (List.zipWith (fun cur prev => cur - prev) rest (x :: rest)).map some

/-- Population variance with ddof 0, as np.var uses. -/
def popVar (xs : List ℚ) : ℚ := (xs.map fun x => (x - meanQ xs) ^ 2).sum / (xs.length : ℚ)

/-- Sample covariance with ddof 1, the off-diagonal entry of np.cov; NaN as
soon as either input holds a NaN, since numpy reductions do not skip NaN. -/
def npCov (xs ys : List (Option ℚ)) : Option ℚ :=
  if (xs.any fun o => o.isNone) || (ys.any fun o => o.isNone) then none
  else
    let a := dropNone xs
    let b := dropNone ys
    some ((List.zipWith (fun x y => (x - meanQ a) * (y - meanQ b)) a b).sum
      / ((a.length : ℚ) - 1))

/-- Per-period metric record produced by run_backtest_period.  The source dict
key sharpe_ratio is shortened to the field name sharpe.  total_return,
volatility, max_drawdown, turnover and beta can be NaN in the source (the
first net return is always NaN and numpy propagates NaN), so they are Option
valued; sharpe falls back to 0 whenever the standard deviation is NaN or not
positive, so it is always a number. -/
structure PeriodMetrics where
  total_return : Option ℚ
  volatility : Option ℚ
  sharpe : ℚ
  max_drawdown : Option ℚ
  turnover : Option ℚ
  beta : Option ℚ
  num_trades : ℚ
  win_rate : ℚ
  profit_factor : ℚ
deriving DecidableEq

/-- The exec abstraction of a strategy submission: the outcome may depend on
the price slice bound into the sandbox namespace (index and close values). -/
abbrev StrategyExec : Type := List Nat → List ℚ → ExecOutcome

/-- Embeds WalkForwardBacktester.run_backtest_period.  sq abstracts np.sqrt
and the square root inside the standard deviations; vbt abstracts the trade
statistics (num_trades, win_rate, profit_factor) of the external vectorbt
library, which is not part of this repository. -/
def run_backtest_period (sq : ℚ → ℚ) (vbt : List ℚ → List ℚ → ℚ × ℚ × ℚ)
    (spread slip : ℚ) (strat : StrategyExec) (data : List (Nat × ℚ))
    (startD endD : Nat) : Except String PeriodMetrics :=
  let period := data.filter fun e => startD ≤ e.1 && e.1 ≤ endD
  if period.length < 2 then .error "Insufficient data for period"
  else
    let idx := period.map Prod.fst
    let prices := period.map Prod.snd
    match execute_strategy (strat idx prices) idx with
    | .error e => .error e
    | .ok signals =>
      let positions := signals
      let priceRets := pctChangeFillZero prices
      let net := netReturns spread slip positions prices
      let cumulative := cumprodSkipna 1 (net.map fun o => o.map fun x => 1 + x)
      let tr := (cumulative.getLast?.bind id).map fun c => c - 1
      let vol := (seriesStd sq net).map fun s => s * sq 252
      let sharpeV :=
        match seriesStd sq net with
        | some s => if 0 < s then meanQ (dropNone net) * 252 / (s * sq 252) else 0
        | none => 0
      let runningMax := expandingMax none cumulative
      let drawdown := List.zipWith
        (fun c m => c.bind fun cv => m.bind fun mv =>
          if mv = 0 then none else some ((cv - mv) / mv))
        cumulative runningMax
      let maxdd := seriesMin drawdown
      let turn := seriesMean ((diffOpt positions).map fun o => o.map abs)
      let betaV :=
        match seriesStd sq (priceRets.map some) with
        | some s =>
          if 0 < s then
            (npCov net (priceRets.map some)).map fun c => c / popVar priceRets
          else some 0
        | none => some 0
      let stats := vbt prices signals
      .ok ⟨tr, vol, sharpeV, maxdd, turn, betaV, stats.1, stats.2.1, stats.2.2⟩

/-! ## Window planner (generate_walk_forward_windows) -/

structure Window where
  train_start : Nat
  train_end : Nat
  val_start : Nat
  val_end : Nat
  test_start : Nat
  test_end : Nat
deriving DecidableEq

/-- First index entry at or after the cutoff: data.index[data.index >= c][0];
an empty selection raises IndexError in Python, hence the Option. -/
def firstGE (idx : List Nat) (c : Nat) : Option Nat := (idx.filter fun t => c ≤ t).head?

/-- Last index entry at or before the cutoff: data.index[data.index <= c][-1]. -/
def lastLE (idx : List Nat) (c : Nat) : Option Nat := (idx.filter fun t => t ≤ c).getLast?

/-- First index entry strictly after the cutoff: data.index[data.index > c][0]. -/
def firstGT (idx : List Nat) (c : Nat) : Option Nat := (idx.filter fun t => c < t).head?

/-- The six boundary selections of one loop iteration, in source order; any
empty selection raises IndexError in Python, hence the Option. -/
def planStep (idx : List Nat) (cur trainS valS testS : Nat) : Option Window :=
  (firstGE idx cur).bind fun a =>
    (lastLE idx (cur + trainS)).bind fun b =>
      (firstGT idx b).bind fun c =>
        (lastLE idx (cur + trainS + valS)).bind fun d =>
          (firstGT idx d).bind fun e =>
            (lastLE idx (cur + trainS + valS + testS)).map fun f => ⟨a, b, c, d, e, f⟩

/-- Fuel-indexed embedding of the while loop of generate_walk_forward_windows;
the fuel supplied by generateWindows suffices for every terminating run of
the Python loop (a zero roll span makes the Python loop run forever; the
model then truncates, which no verified statement depends on). -/
def genWindowsGo (idx : List Nat) (trainS valS testS rollS dataEnd : Nat) :
    Nat → Nat → Except String (List Window)
  | 0, _ => .ok []
  | fuel + 1, cur =>
    if dataEnd < cur + trainS + valS + testS then .ok []
    else
      match planStep idx cur trainS valS testS with
      | none => .error "IndexError"
      | some w =>
        match genWindowsGo idx trainS valS testS rollS dataEnd fuel (cur + rollS) with
        | .ok rest => .ok (w :: rest)
        | .error m => .error m

/-- Embeds WalkForwardBacktester.generate_walk_forward_windows over the index
of the data frame. -/
def generateWindows (idx : List Nat) (trainS valS testS rollS : Nat) :
    Except String (List Window) :=
  match idx with
  | [] => .error "IndexError"
  | t0 :: rest =>
    let dataEnd := ((t0 :: rest).getLast?).getD t0
    genWindowsGo idx trainS valS testS rollS dataEnd (dataEnd + 2) t0

/-! ## Aggregator (calculate_aggregate_metrics) -/

/-- np.mean over a float list: one NaN poisons the mean, numpy reductions do
not skip NaN. -/
def npMean (xs : List (Option ℚ)) : Option ℚ :=
  if xs.any fun o => o.isNone then none else some (meanQ (dropNone xs))

/-- np.min over a float list. -/
def npMinQ (xs : List ℚ) : Option ℚ :=
  match xs with
  | [] => none
  | y :: ys => some (ys.foldl min y)

/-- Aggregate entries contributed by one period name, matching the body of the
per-period loop of calculate_aggregate_metrics; a period with an empty result
list contributes nothing. -/
def aggForPeriod (sq : ℚ → ℚ) (period : String) (rs : List (Nat × PeriodMetrics)) :
    List (String × Option ℚ) :=
  match rs with
  | [] => []
  | _ :: _ =>
    let sharpes := rs.map fun r => r.2.sharpe
    [ (period ++ "_avg_sharpe", some (meanQ sharpes)),
      (period ++ "_avg_return", npMean (rs.map fun r => r.2.total_return)),
      (period ++ "_avg_maxdd", npMean (rs.map fun r => r.2.max_drawdown)),
      (period ++ "_avg_turnover", npMean (rs.map fun r => r.2.turnover)),
      (period ++ "_avg_beta", npMean (rs.map fun r => r.2.beta)),
      (period ++ "_sharpe_std", some (sq (popVar sharpes))),
      (period ++ "_min_sharpe", npMinQ sharpes),
      (period ++ "_unstable_windows", some ((sharpes.countP fun s => decide (s < 3 / 10) : ℕ) : ℚ)) ]

/-- Embeds WalkForwardBacktester.calculate_aggregate_metrics; each per-window
result carries its window id, as the dicts in the source do. -/
def calculate_aggregate_metrics (sq : ℚ → ℚ)
    (trainResults valResults testResults : List (Nat × PeriodMetrics)) :
    List (String × Option ℚ) :=
  aggForPeriod sq "train" trainResults ++ aggForPeriod sq "validation" valResults
    ++ aggForPeriod sq "test" testResults

/-! ## Walk-forward loop (run_walk_forward_backtest) -/

/-- The per-window loop of run_walk_forward_backtest: each sub-period result
is appended to its list as soon as it is produced; an exception from any
sub-period is caught, the remainder of that window is skipped, and the loop
continues with the next window. -/
def runWindows (sq : ℚ → ℚ) (vbt : List ℚ → List ℚ → ℚ × ℚ × ℚ) (spread slip : ℚ)
    (strat : StrategyExec) (data : List (Nat × ℚ)) :
    List Window → Nat →
      List (Nat × PeriodMetrics) × List (Nat × PeriodMetrics) × List (Nat × PeriodMetrics)
  | [], _ => ([], [], [])
  | w :: rest, i =>
    let tail := runWindows sq vbt spread slip strat data rest (i + 1)
    match run_backtest_period sq vbt spread slip strat data w.train_start w.train_end with
    | .error _ => tail
    | .ok tm =>
      match run_backtest_period sq vbt spread slip strat data w.val_start w.val_end with
      | .error _ => ((i, tm) :: tail.1, tail.2.1, tail.2.2)
      | .ok vm =>
        match run_backtest_period sq vbt spread slip strat data w.test_start w.test_end with
        | .error _ => ((i, tm) :: tail.1, (i, vm) :: tail.2.1, tail.2.2)
        | .ok xm => ((i, tm) :: tail.1, (i, vm) :: tail.2.1, (i, xm) :: tail.2.2)

structure WalkForwardResults where
  train_results : List (Nat × PeriodMetrics)
  validation_results : List (Nat × PeriodMetrics)
  test_results : List (Nat × PeriodMetrics)
  windows : List Window
  aggregate_metrics : List (String × Option ℚ)
deriving DecidableEq

/-- Embeds WalkForwardBacktester.run_walk_forward_backtest. -/
def run_walk_forward_backtest (sq : ℚ → ℚ) (vbt : List ℚ → List ℚ → ℚ × ℚ × ℚ)
    (spread slip : ℚ) (trainS valS testS rollS : Nat)
    (strat : StrategyExec) (data : List (Nat × ℚ)) : Except String WalkForwardResults :=
  match generateWindows (data.map Prod.fst) trainS valS testS rollS with
  | .error e => .error e
  | .ok ws =>
    if ws = [] then .error "Insufficient data for walk-forward backtesting"
    else
      let r := runWindows sq vbt spread slip strat data ws 0
      .ok ⟨r.1, r.2.1, r.2.2, ws, calculate_aggregate_metrics sq r.1 r.2.1 r.2.2⟩

/-- The value of a successful Except computation, none on an exception. -/
def okValue {ε α : Type} : Except ε α → Option α
  | .ok a => some a
  | .error _ => none

/-! ## Concrete scenario inputs used by the closed statements below -/

/-- A placeholder square root function; no verified statement depends on the
values of np.sqrt. -/
def sqZero : ℚ → ℚ := fun _ => 0

/-- Placeholder trade statistics for the external vectorbt library; no
verified statement depends on their values. -/
def vbtZero : List ℚ → List ℚ → ℚ × ℚ × ℚ := fun _ _ => (0, 0, 0)

/-- Seven consecutive observations with constant close 1. -/
def dataSeven : List (Nat × ℚ) := [(0, 1), (1, 1), (2, 1), (3, 1), (4, 1), (5, 1), (6, 1)]

/-- A submission whose exec never assigns the signals binding, whatever the
price slice; every period run on it fails with the missing-signal error. -/
def stratNoSignals : StrategyExec := fun _ _ => ExecOutcome.env none

/-- A submission whose exec assigns constant full-long signals when the bound
price slice has at least four rows and otherwise never assigns the binding,
so on dataSeven its train run succeeds while its validation run raises. -/
def stratTrainOnly : StrategyExec := fun _ prices =>
  if 4 ≤ prices.length then ExecOutcome.env (some (RawSignals.values (prices.map fun _ => some 1)))
  else ExecOutcome.env none

/-- The period metrics record produced by the constant-price scenarios. -/
def pmZero : PeriodMetrics := ⟨some 0, some 0, 0, some 0, some 0, some 0, 0, 0, 0⟩

/-- Strict ordering of the six window boundaries, as the spec states it. -/
def windowStrictOrdered (w : Window) : Prop :=
  w.train_start < w.train_end ∧ w.train_end < w.val_start ∧ w.val_start < w.val_end
    ∧ w.val_end < w.test_start ∧ w.test_start < w.test_end

instance (w : Window) : Decidable (windowStrictOrdered w) := by
  unfold windowStrictOrdered; infer_instance

end Atlas

deriving instance DecidableEq for Except

namespace Atlas

/-! ## Helper lemmas -/

theorem zipWithGet {α β γ : Type} (f : α → β → γ) (as : List α) (bs : List β) (i : Nat) :
    (List.zipWith f as bs)[i]? = (as[i]?).bind fun a => (bs[i]?).map fun b => f a b := by
  induction as generalizing bs i with
  | nil => simp
  | cons a as ih =>
    cases bs with
    | nil => simp
    | cons b bs =>
      cases i with
      | zero => simp
      | succ n => simpa using ih bs n

theorem memZipWith {α β γ : Type} {f : α → β → γ} :
    ∀ {as : List α} {bs : List β} {c : γ}, c ∈ List.zipWith f as bs →
      ∃ a b, a ∈ as ∧ b ∈ bs ∧ c = f a b := by
  intro as
  induction as with
  | nil => intro bs c h; simp at h
  | cons a as ih =>
    intro bs c h
    cases bs with
    | nil => simp at h
    | cons b bs =>
      simp only [List.zipWith_cons_cons, List.mem_cons] at h
      rcases h with h | h
      · exact ⟨a, b, by simp, by simp, h⟩
      · obtain ⟨x, y, hx, hy, rfl⟩ := ih h
        exact ⟨x, y, by simp [hx], by simp [hy], rfl⟩

theorem getDAt {α : Type} (l : List α) (i : Nat) (d : α) (h : i < l.length) :
    l.getD i d = l[i] := by
  rw [List.getD_eq_getElem?_getD, List.getElem?_eq_getElem h]
  rfl

theorem getSome {α : Type} (l : List α) (i : Nat) (d : α) (h : i < l.length) :
    l[i]? = some (l.getD i d) := by
  rw [List.getElem?_eq_getElem h, getDAt l i d h]

theorem isEmptyFalse {α : Type} {l : List α} {a : α} (h : a ∈ l) : l.isEmpty = false := by
  cases l with
  | nil => simp at h
  | cons x xs => rfl

/-! ## Claim C8 -/

/-- Claim C8: a submission whose exec never assigns the signals binding fails
with the missing-signal message, and any exception raised during execution is
caught and re-raised by execute_strategy with the original message behind the
fixed RuntimeError prefix rather than propagating unchanged. -/
theorem c8_execution_errors :
    (∀ idx : List Nat,
      execute_strategy (ExecOutcome.env none) idx
        = .error ("Strategy execution failed: " ++ missingSignalMsg))
    ∧ ∀ (m : String) (idx : List Nat),
        execute_strategy (ExecOutcome.raises m) idx
          = .error ("Strategy execution failed: " ++ m) :=
  ⟨fun _ => rfl, fun _ _ => rfl⟩

/-! ## Claim C3 -/

/-- Claim C3: whenever execute_strategy succeeds, the returned signal series
is re-indexed to exactly the input price index, so its length equals the
length of the price slice, and after the clamp every value lies between -1
and 1. -/
theorem c3_signal_bounds (outcome : ExecOutcome) (idx : List Nat) (out : List ℚ)
    (h : execute_strategy outcome idx = .ok out) :
    out.length = idx.length ∧ ∀ v ∈ out, -1 ≤ v ∧ v ≤ 1 := by
  have bounds : ∀ xs : List ℚ, ∀ v ∈ clipUnit xs, -1 ≤ v ∧ v ≤ 1 := by
    intro xs v hv
    simp only [clipUnit, List.mem_map] at hv
    obtain ⟨q, -, rfl⟩ := hv
    exact ⟨le_min (by norm_num) (le_max_left _ _), min_le_left _ _⟩
  have lengths : ∀ entries : List (Nat × Option ℚ),
      (clipUnit (fillnaZero (reindexFfill entries idx))).length = idx.length := by
    intro entries
    simp [clipUnit, fillnaZero, reindexFfill]
  cases outcome with
  | raises m => simp [execute_strategy] at h
  | env s =>
    cases s with
    | none => simp [execute_strategy] at h
    | some rs =>
      cases rs with
      | series entries =>
        simp only [execute_strategy, Except.ok.injEq] at h
        subst h
        exact ⟨lengths _, bounds _⟩
      | values vals =>
        simp only [execute_strategy] at h
        split at h
        · simp only [Except.ok.injEq] at h
          subst h
          exact ⟨lengths _, bounds _⟩
        · simp at h

/-- Witness for C3 at a concrete successful run. -/
theorem c3_signal_bounds_witness :
    ([(1 : ℚ), 0]).length = ([0, 1] : List Nat).length
      ∧ ∀ v ∈ [(1 : ℚ), 0], -1 ≤ v ∧ v ≤ 1 :=
  c3_signal_bounds (ExecOutcome.env (some (RawSignals.values [some 5, none]))) [0, 1] [1, 0]
    (by decide)

/-! ## Claim C4 -/

/-- Counterexample to C4 as stated: on a sparse two-entry index the planner
emits a window whose boundaries are not strictly ordered (train_start equals
train_end and val_start exceeds val_end). -/
theorem c4_counterexample :
    generateWindows [0, 20] 10 4 2 30 = .ok [⟨0, 0, 20, 0, 20, 0⟩]
      ∧ ¬ windowStrictOrdered ⟨0, 0, 20, 0, 20, 0⟩ := by
  exact ⟨by decide, by decide⟩

theorem firstGE_spec {idx : List Nat} {c t : Nat} (h : firstGE idx c = some t) :
    t ∈ idx ∧ c ≤ t := by
  have hm := List.mem_of_mem_head? (Option.mem_def.mpr h)
  rw [List.mem_filter] at hm
  exact ⟨hm.1, by simpa using hm.2⟩

theorem lastLE_spec {idx : List Nat} {c t : Nat} (h : lastLE idx c = some t) :
    t ∈ idx ∧ t ≤ c := by
  have hm := List.mem_of_mem_getLast? (Option.mem_def.mpr h)
  rw [List.mem_filter] at hm
  exact ⟨hm.1, by simpa using hm.2⟩

theorem firstGT_spec {idx : List Nat} {c t : Nat} (h : firstGT idx c = some t) :
    t ∈ idx ∧ c < t := by
  have hm := List.mem_of_mem_head? (Option.mem_def.mpr h)
  rw [List.mem_filter] at hm
  exact ⟨hm.1, by simpa using hm.2⟩

theorem planStep_spec {idx : List Nat} {cur tS vS xS : Nat} {w : Window}
    (h : planStep idx cur tS vS xS = some w) :
    (w.train_start ∈ idx ∧ w.train_end ∈ idx ∧ w.val_start ∈ idx ∧ w.val_end ∈ idx
      ∧ w.test_start ∈ idx ∧ w.test_end ∈ idx)
      ∧ w.train_end < w.val_start ∧ w.val_end < w.test_start := by
  simp only [planStep, Option.bind_eq_some, Option.map_eq_some'] at h
  obtain ⟨a, ha, b, hb, c, hc, d, hd, e, he, f, hf, rfl⟩ := h
  obtain ⟨ha1, -⟩ := firstGE_spec ha
  obtain ⟨hb1, -⟩ := lastLE_spec hb
  obtain ⟨hc1, hc2⟩ := firstGT_spec hc
  obtain ⟨hd1, -⟩ := lastLE_spec hd
  obtain ⟨he1, he2⟩ := firstGT_spec he
  obtain ⟨hf1, -⟩ := lastLE_spec hf
  exact ⟨⟨ha1, hb1, hc1, hd1, he1, hf1⟩, hc2, he2⟩

theorem genWindowsGo_spec (idx : List Nat) (tS vS xS rS dE : Nat) :
    ∀ (fuel cur : Nat) (ws : List Window),
      genWindowsGo idx tS vS xS rS dE fuel cur = .ok ws →
      ∀ w ∈ ws,
        (w.train_start ∈ idx ∧ w.train_end ∈ idx ∧ w.val_start ∈ idx ∧ w.val_end ∈ idx
          ∧ w.test_start ∈ idx ∧ w.test_end ∈ idx)
          ∧ w.train_end < w.val_start ∧ w.val_end < w.test_start := by
  intro fuel
  induction fuel with
  | zero =>
    intro cur ws h w hw
    simp only [genWindowsGo, Except.ok.injEq] at h
    subst h
    simp at hw
  | succ n ih =>
    intro cur ws h w hw
    simp only [genWindowsGo] at h
    split at h
    · simp only [Except.ok.injEq] at h
      subst h
      simp at hw
    · cases hp : planStep idx cur tS vS xS with
      | none => rw [hp] at h; simp at h
      | some w0 =>
        rw [hp] at h
        cases hr : genWindowsGo idx tS vS xS rS dE n (cur + rS) with
        | error m => rw [hr] at h; simp at h
        | ok rest =>
          rw [hr] at h
          simp only [Except.ok.injEq] at h
          subst h
          rcases List.mem_cons.mp hw with rfl | hw2
          · exact planStep_spec hp
          · exact ih (cur + rS) rest hr w hw2

/-- Claim C4 (amended): every window emitted by the planner has all six
boundaries drawn from the actual price-series index, and the boundary
selections force train_end strictly before val_start and val_end strictly
before test_start; the remaining strict inequalities of the claim can fail on
a sparse index, as the counterexample shows. -/
theorem c4_amended (idx : List Nat) (tS vS xS rS : Nat) (ws : List Window)
    (h : generateWindows idx tS vS xS rS = .ok ws) (w : Window) (hw : w ∈ ws) :
    (w.train_start ∈ idx ∧ w.train_end ∈ idx ∧ w.val_start ∈ idx ∧ w.val_end ∈ idx
      ∧ w.test_start ∈ idx ∧ w.test_end ∈ idx)
      ∧ w.train_end < w.val_start ∧ w.val_end < w.test_start := by
  cases idx with
  | nil => simp [generateWindows] at h
  | cons t0 rest =>
    simp only [generateWindows] at h
    exact genWindowsGo_spec _ _ _ _ _ _ _ _ _ h w hw

/-- Witness for the amended C4 on a dense index. -/
theorem c4_amended_witness :
    ((Window.mk 0 3 4 5 6 6).train_start ∈ ([0, 1, 2, 3, 4, 5, 6] : List Nat)
      ∧ (Window.mk 0 3 4 5 6 6).train_end ∈ ([0, 1, 2, 3, 4, 5, 6] : List Nat)
      ∧ (Window.mk 0 3 4 5 6 6).val_start ∈ ([0, 1, 2, 3, 4, 5, 6] : List Nat)
      ∧ (Window.mk 0 3 4 5 6 6).val_end ∈ ([0, 1, 2, 3, 4, 5, 6] : List Nat)
      ∧ (Window.mk 0 3 4 5 6 6).test_start ∈ ([0, 1, 2, 3, 4, 5, 6] : List Nat)
      ∧ (Window.mk 0 3 4 5 6 6).test_end ∈ ([0, 1, 2, 3, 4, 5, 6] : List Nat))
      ∧ (Window.mk 0 3 4 5 6 6).train_end < (Window.mk 0 3 4 5 6 6).val_start
      ∧ (Window.mk 0 3 4 5 6 6).val_end < (Window.mk 0 3 4 5 6 6).test_start :=
  c4_amended [0, 1, 2, 3, 4, 5, 6] 3 2 1 10 [⟨0, 3, 4, 5, 6, 6⟩] (by decide)
    ⟨0, 3, 4, 5, 6, 6⟩ (by decide)

/-! ## Claims C6 and C7 (code bug evaluations) -/

/-- Claim C6, code bug: on a parsable submission whose source carries a
malformed numeric token after a leverage keyword, check_strategy aborts with
an uncaught ValueError raised by float inside the numeric-bound check, so no
verdict is returned at all and the passed-iff-no-violations contract cannot
hold there. -/
theorem c6_code_bug :
    check_strategy "# leverage = 1.2.3\nsignals = 1".data (.ok []) true
        = .error "ValueError: could not convert string to float"
      ∧ okValue (check_strategy "# leverage = 1.2.3\nsignals = 1".data (.ok []) true)
        = (none : Option Verdict) :=
  ⟨by decide, by decide⟩

/-- Claim C7, code bug: on a parsable submission whose source carries a
malformed numeric token after a position keyword, check_strategy aborts with
an uncaught ValueError raised by float inside the numeric-bound check, so the
violations of the four checks are never combined or returned. -/
theorem c7_code_bug :
    check_strategy "# position > 1.2.3\nsignals = 1".data (.ok []) true
        = .error "ValueError: could not convert string to float"
      ∧ okValue (check_strategy "# position > 1.2.3\nsignals = 1".data (.ok []) true)
        = (none : Option Verdict) :=
  ⟨by decide, by decide⟩

/-! ## Claim C10 -/

/-- Counterexample to C10 as stated: a parsable submission containing the
substring http together with a malformed numeric token after a leverage
keyword makes check_strategy with a data frame supplied abort with the
uncaught ValueError of the numeric-bound check, so no failed verdict is
returned there at all. -/
theorem c10_counterexample :
    check_strategy "# http leverage = 1.2.3\nsignals = 1".data (.ok []) true
        = .error "ValueError: could not convert string to float"
      ∧ containsSub "http".data
          (lowerChars "# http leverage = 1.2.3\nsignals = 1".data) = true :=
  ⟨by decide, by decide⟩

/-- Claim C10 (amended): whenever the verifier returns a verdict on a parsable
submission whose source contains the substring http in any letter case, or a
method call written as .get(, .post(, .put( or .delete(, the verdict is
failed and carries the corresponding banned-pattern or network-operation
violation, regardless of what the submission actually does. -/
theorem c10_banned_network (source : List Char) (tree : List PyNode) (dp : Bool)
    (v : Verdict) (hc : check_strategy source (.ok tree) dp = .ok v)
    (hpat : containsSub "http".data (lowerChars source) = true
      ∨ containsSub ".get(".data (lowerChars source) = true
      ∨ containsSub ".post(".data (lowerChars source) = true
      ∨ containsSub ".put(".data (lowerChars source) = true
      ∨ containsSub ".delete(".data (lowerChars source) = true) :
    v.passed = false
      ∧ ("Banned pattern detected: http" ∈ v.errors
        ∨ "Network operation detected: \\.get\\(" ∈ v.errors
        ∨ "Network operation detected: \\.post\\(" ∈ v.errors
        ∨ "Network operation detected: \\.put\\(" ∈ v.errors
        ∨ "Network operation detected: \\.delete\\(" ∈ v.errors) := by
  cases hps : (if dp then check_position_sizing source else .ok []) with
  | error e =>
    simp only [check_strategy] at hc
    rw [hps] at hc
    simp at hc
  | ok ps =>
    simp only [check_strategy] at hc
    rw [hps] at hc
    simp only [Except.ok.injEq] at hc
    subst hc
    have memViol : ∀ s : String,
        s ∈ check_banned_patterns source ∨ s ∈ check_network_operations source →
        s ∈ check_banned_patterns source ++ check_ast tree ++ check_forward_looking source
          ++ ps ++ check_file_operations tree ++ check_network_operations source := by
      intro s hs
      rcases hs with hs | hs
      · simp [List.mem_append, hs]
      · simp [List.mem_append, hs]
    rcases hpat with h | h | h | h | h
    · have hb : "Banned pattern detected: http" ∈ check_banned_patterns source := by
        refine List.mem_filterMap.mpr ⟨("http".data, "http"), by decide, ?_⟩
        simp [h]
      have hv := memViol _ (Or.inl hb)
      exact ⟨by simpa using isEmptyFalse hv, Or.inl hv⟩
    · have hb : "Network operation detected: \\.get\\(" ∈ check_network_operations source := by
        refine List.mem_filterMap.mpr ⟨(".get(".data, "\\.get\\("), by decide, ?_⟩
        simp [h]
      have hv := memViol _ (Or.inr hb)
      exact ⟨by simpa using isEmptyFalse hv, Or.inr (Or.inl hv)⟩
    · have hb : "Network operation detected: \\.post\\(" ∈ check_network_operations source := by
        refine List.mem_filterMap.mpr ⟨(".post(".data, "\\.post\\("), by decide, ?_⟩
        simp [h]
      have hv := memViol _ (Or.inr hb)
      exact ⟨by simpa using isEmptyFalse hv, Or.inr (Or.inr (Or.inl hv))⟩
    · have hb : "Network operation detected: \\.put\\(" ∈ check_network_operations source := by
        refine List.mem_filterMap.mpr ⟨(".put(".data, "\\.put\\("), by decide, ?_⟩
        simp [h]
      have hv := memViol _ (Or.inr hb)
      exact ⟨by simpa using isEmptyFalse hv, Or.inr (Or.inr (Or.inr (Or.inl hv)))⟩
    · have hb : "Network operation detected: \\.delete\\(" ∈ check_network_operations source := by
        refine List.mem_filterMap.mpr ⟨(".delete(".data, "\\.delete\\("), by decide, ?_⟩
        simp [h]
      have hv := memViol _ (Or.inr hb)
      exact ⟨by simpa using isEmptyFalse hv, Or.inr (Or.inr (Or.inr (Or.inr hv)))⟩

/-- Witness for C10 at a concrete submission containing a .get( call. -/
theorem c10_banned_network_witness :
    (Verdict.mk false ["Network operation detected: \\.get\\("]).passed = false
      ∧ ("Banned pattern detected: http"
            ∈ (Verdict.mk false ["Network operation detected: \\.get\\("]).errors
        ∨ "Network operation detected: \\.get\\("
            ∈ (Verdict.mk false ["Network operation detected: \\.get\\("]).errors
        ∨ "Network operation detected: \\.post\\("
            ∈ (Verdict.mk false ["Network operation detected: \\.get\\("]).errors
        ∨ "Network operation detected: \\.put\\("
            ∈ (Verdict.mk false ["Network operation detected: \\.get\\("]).errors
        ∨ "Network operation detected: \\.delete\\("
            ∈ (Verdict.mk false ["Network operation detected: \\.get\\("]).errors) :=
  c10_banned_network "x = price.get(1)".data [] true
    ⟨false, ["Network operation detected: \\.get\\("]⟩ (by decide)
    (Or.inr (Or.inl (by decide)))

end Atlas

namespace Atlas

/-! ## Claim C5: cost model lemmas -/

theorem length_diffFillZero (xs : List ℚ) : (diffFillZero xs).length = xs.length := by
  cases xs with
  | nil => rfl
  | cons x rest => simp [diffFillZero]

theorem length_costs (spread slip : ℚ) (positions prices : List ℚ) :
    (calculate_transaction_costs spread slip positions prices).length
      = min positions.length prices.length := by
  simp [calculate_transaction_costs, List.length_zipWith, length_diffFillZero]

theorem length_pct (prices : List ℚ) : (pctChangeFillZero prices).length = prices.length := by
  cases prices with
  | nil => rfl
  | cons p rest => simp [pctChangeFillZero]

theorem diffFillZero_get (xs : List ℚ) (i : Nat) (h : i + 1 < xs.length) :
    (diffFillZero xs)[i + 1]? = some (xs.getD (i + 1) 0 - xs.getD i 0) := by
  cases xs with
  | nil => simp at h
  | cons x rest =>
    have h1 : i < rest.length := by simp at h; omega
    have h2 : i < (x :: rest).length := by simp; omega
    simp only [diffFillZero, List.getElem?_cons_succ, zipWithGet]
    rw [getSome rest i 0 h1, getSome (x :: rest) i 0 h2]
    simp [List.getD_cons_succ]

theorem costs_get (spread slip : ℚ) (positions prices : List ℚ)
    (hlen : positions.length = prices.length) (i : Nat) (hi : i + 1 < prices.length) :
    (calculate_transaction_costs spread slip positions prices)[i + 1]?
      = some (|positions.getD (i + 1) 0 - positions.getD i 0| * (spread + slip)
          * prices.getD (i + 1) 0) := by
  rw [calculate_transaction_costs, zipWithGet,
    diffFillZero_get positions i (by rw [hlen]; exact hi), getSome prices (i + 1) 0 hi]
  rfl

theorem costs_getD (spread slip : ℚ) (positions prices : List ℚ)
    (hlen : positions.length = prices.length) (i : Nat) (hi : i + 1 < prices.length) :
    (calculate_transaction_costs spread slip positions prices).getD (i + 1) 0
      = |positions.getD (i + 1) 0 - positions.getD i 0| * (spread + slip)
          * prices.getD (i + 1) 0 := by
  rw [List.getD_eq_getElem?_getD, costs_get spread slip positions prices hlen i hi]
  rfl

theorem shiftOne_get (xs : List ℚ) (i : Nat) (h : i + 1 < xs.length) :
    (shiftOne xs)[i + 1]? = some (some (xs.getD i 0)) := by
  cases xs with
  | nil => simp at h
  | cons x rest =>
    have h1 : i < (x :: rest).length - 1 := by simp at h ⊢; omega
    have h2 : i < (x :: rest).length := by simp at h ⊢; omega
    simp only [shiftOne, List.getElem?_cons_succ, List.getElem?_map, List.getElem?_dropLast]
    rw [if_pos h1, getSome (x :: rest) i 0 h2]
    rfl

theorem netReturns_get (spread slip : ℚ) (positions prices : List ℚ)
    (hlen : positions.length = prices.length) (hpr : ∀ p ∈ prices, 0 < p)
    (i : Nat) (hi : i + 1 < prices.length) :
    (netReturns spread slip positions prices).getD (i + 1) none
      = some (positions.getD i 0 * (pctChangeFillZero prices).getD (i + 1) 0
          - (calculate_transaction_costs spread slip positions prices).getD (i + 1) 0
            / prices.getD i 0) := by
  have hip : i + 1 < positions.length := by rw [hlen]; exact hi
  have hi0 : i < prices.length := by omega
  have hpct : i + 1 < (pctChangeFillZero prices).length := by rw [length_pct]; exact hi
  have hpmem : prices.getD i 0 ∈ prices := by
    rw [getDAt prices i 0 hi0]
    exact List.getElem_mem hi0
  have hpne : prices.getD i 0 ≠ 0 := ne_of_gt (hpr _ hpmem)
  rw [List.getD_eq_getElem?_getD, netReturns, zipWithGet, strategyReturns, zipWithGet,
    shiftOne_get positions i hip, getSome (pctChangeFillZero prices) (i + 1) 0 hpct,
    fillnaZero, List.getElem?_map, costReturns, zipWithGet,
    costs_get spread slip positions prices hlen i hi, shiftOne_get prices i hi]
  simp only [Option.bind_some, Option.map_some', Option.some_bind, if_neg hpne,
    Option.getD_some]
  rw [costs_getD spread slip positions prices hlen i hi]
  simp [sub_eq_add_neg, div_eq_mul_inv]

/-! ## Claim C5 -/

/-- Claim C5: with non-negative spread and slippage rates and strictly
positive prices, the transaction cost at each step equals the combined rate
times the absolute position change times the current price, with a zero cost
at the first step where no previous position exists; every cost is
non-negative and is exactly zero whenever the position is unchanged; and the
net return at each later step is the strategy return minus the cost divided
by the prior price. -/
theorem c5_cost_model (spread slip : ℚ) (positions prices : List ℚ)
    (hlen : positions.length = prices.length) (hsp : 0 ≤ spread) (hsl : 0 ≤ slip)
    (hpr : ∀ p ∈ prices, 0 < p) :
    (calculate_transaction_costs spread slip positions prices).length = prices.length
      ∧ (∀ i, i + 1 < prices.length →
          (calculate_transaction_costs spread slip positions prices).getD (i + 1) 0
            = (spread + slip) * |positions.getD (i + 1) 0 - positions.getD i 0|
                * prices.getD (i + 1) 0)
      ∧ (∀ c ∈ calculate_transaction_costs spread slip positions prices, 0 ≤ c)
      ∧ (∀ i, i + 1 < prices.length →
          positions.getD (i + 1) 0 = positions.getD i 0 →
          (calculate_transaction_costs spread slip positions prices).getD (i + 1) 0 = 0)
      ∧ (∀ i, i + 1 < prices.length →
          (netReturns spread slip positions prices).getD (i + 1) none
            = some (positions.getD i 0 * (pctChangeFillZero prices).getD (i + 1) 0
                - (calculate_transaction_costs spread slip positions prices).getD (i + 1) 0
                  / prices.getD i 0)) := by
  have hform : ∀ i, i + 1 < prices.length →
      (calculate_transaction_costs spread slip positions prices).getD (i + 1) 0
        = (spread + slip) * |positions.getD (i + 1) 0 - positions.getD i 0|
            * prices.getD (i + 1) 0 := by
    intro i hi
    rw [costs_getD spread slip positions prices hlen i hi]
    ring
  refine ⟨?_, hform, ?_, ?_, ?_⟩
  · rw [length_costs, hlen]
    simp
  · intro c hc
    rw [calculate_transaction_costs] at hc
    obtain ⟨d, p, -, hp, rfl⟩ := memZipWith hc
    have h1 : (0 : ℚ) < p := hpr p hp
    have h2 : (0 : ℚ) ≤ |d| := abs_nonneg d
    have h3 : (0 : ℚ) ≤ spread + slip := by linarith
    exact mul_nonneg (mul_nonneg h2 h3) (le_of_lt h1)
  · intro i hi heq
    rw [hform i hi, heq]
    simp
  · exact netReturns_get spread slip positions prices hlen hpr

/-- Witness for C5 on a concrete three-step series. -/
theorem c5_cost_model_witness :
    (calculate_transaction_costs (1/1000) (1/1000) [0, 1, 1] [1, 2, 4]).length
        = ([1, 2, 4] : List ℚ).length
      ∧ (∀ i, i + 1 < ([1, 2, 4] : List ℚ).length →
          (calculate_transaction_costs (1/1000) (1/1000) [0, 1, 1] [1, 2, 4]).getD (i + 1) 0
            = ((1:ℚ)/1000 + 1/1000)
                * |([0, 1, 1] : List ℚ).getD (i + 1) 0 - ([0, 1, 1] : List ℚ).getD i 0|
                * ([1, 2, 4] : List ℚ).getD (i + 1) 0)
      ∧ (∀ c ∈ calculate_transaction_costs (1/1000) (1/1000) [0, 1, 1] [1, 2, 4], 0 ≤ c)
      ∧ (∀ i, i + 1 < ([1, 2, 4] : List ℚ).length →
          ([0, 1, 1] : List ℚ).getD (i + 1) 0 = ([0, 1, 1] : List ℚ).getD i 0 →
          (calculate_transaction_costs (1/1000) (1/1000) [0, 1, 1] [1, 2, 4]).getD (i + 1) 0
            = 0)
      ∧ (∀ i, i + 1 < ([1, 2, 4] : List ℚ).length →
          (netReturns (1/1000) (1/1000) [0, 1, 1] [1, 2, 4]).getD (i + 1) none
            = some (([0, 1, 1] : List ℚ).getD i 0
                  * (pctChangeFillZero [1, 2, 4]).getD (i + 1) 0
                - (calculate_transaction_costs (1/1000) (1/1000) [0, 1, 1]
                      [1, 2, 4]).getD (i + 1) 0
                  / ([1, 2, 4] : List ℚ).getD i 0)) :=
  c5_cost_model (1/1000) (1/1000) [0, 1, 1] [1, 2, 4] (by decide) (by decide) (by decide)
    (by decide)

end Atlas

namespace Atlas

/-! ## Claim C1 -/

/-- Counterexample to C1 as stated: a walk-forward run over one window on a
strategy that never assigns the signals binding produces zero test-period
results, yet run_walk_forward_backtest returns a results record (with empty
period lists and an empty aggregate) instead of failing. -/
theorem c1_counterexample :
    okValue (run_walk_forward_backtest sqZero vbtZero (1/1000) (1/1000) 3 2 1 10
        stratNoSignals dataSeven)
      = some ⟨[], [], [], [⟨0, 3, 4, 5, 6, 6⟩], []⟩ := by decide

/-- Claim C1 (amended): whenever the planner emits at least one window,
run_walk_forward_backtest returns a results record carrying those windows, no
matter how many windows produce a test-period result; it fails only when the
planner emits no windows at all. -/
theorem c1_amended (sq : ℚ → ℚ) (vbt : List ℚ → List ℚ → ℚ × ℚ × ℚ) (spread slip : ℚ)
    (tS vS xS rS : Nat) (strat : StrategyExec) (data : List (Nat × ℚ)) (ws : List Window)
    (hw : generateWindows (data.map Prod.fst) tS vS xS rS = .ok ws) (hne : ws ≠ []) :
    Except.map WalkForwardResults.windows
        (run_walk_forward_backtest sq vbt spread slip tS vS xS rS strat data) = .ok ws := by
  simp only [run_walk_forward_backtest, hw]
  rw [if_neg hne]
  rfl

/-- Witness for the amended C1 on the all-failing strategy. -/
theorem c1_amended_witness :
    Except.map WalkForwardResults.windows
        (run_walk_forward_backtest sqZero vbtZero (1/1000) (1/1000) 3 2 1 10 stratNoSignals
          dataSeven) = .ok [⟨0, 3, 4, 5, 6, 6⟩] :=
  c1_amended sqZero vbtZero (1/1000) (1/1000) 3 2 1 10 stratNoSignals dataSeven
    [⟨0, 3, 4, 5, 6, 6⟩] (by decide) (by decide)

/-! ## Claim C2 -/

/-- Counterexample to C2 as stated: on a strategy whose train run succeeds and
whose validation run raises, the window still contributes its train result to
the train list even though a sub-period of that window failed, so a failing
window is not skipped entirely. -/
theorem c2_counterexample :
    okValue (run_walk_forward_backtest sqZero vbtZero (1/1000) (1/1000) 3 2 1 10
        stratTrainOnly dataSeven)
      = some ⟨[(0, pmZero)], [], [], [⟨0, 3, 4, 5, 6, 6⟩],
          calculate_aggregate_metrics sqZero [(0, pmZero)] [] []⟩ := by decide

/-- Claim C2 (amended): each sub-period result of a window is appended to its
list as soon as it is produced, so an exception in any sub-period is caught,
the failing sub-period and every later sub-period of that window contribute
nothing, results already recorded for earlier sub-periods of that window are
kept, and the remaining windows are processed exactly as if the window were
absent: the train list gains the window entry precisely when its train run
succeeds, the validation list precisely when train and validation succeed,
and the test list precisely when all three sub-periods succeed. -/
theorem c2_amended (sq : ℚ → ℚ) (vbt : List ℚ → List ℚ → ℚ × ℚ × ℚ) (spread slip : ℚ)
    (strat : StrategyExec) (data : List (Nat × ℚ)) (i : Nat) (w : Window)
    (rest : List Window) :
    ((runWindows sq vbt spread slip strat data (w :: rest) i).1
        = match okValue (run_backtest_period sq vbt spread slip strat data
              w.train_start w.train_end) with
          | some tm => (i, tm) :: (runWindows sq vbt spread slip strat data rest (i + 1)).1
          | none => (runWindows sq vbt spread slip strat data rest (i + 1)).1)
      ∧ ((runWindows sq vbt spread slip strat data (w :: rest) i).2.1
        = match okValue (run_backtest_period sq vbt spread slip strat data
              w.train_start w.train_end),
            okValue (run_backtest_period sq vbt spread slip strat data
              w.val_start w.val_end) with
          | some _, some vm =>
              (i, vm) :: (runWindows sq vbt spread slip strat data rest (i + 1)).2.1
          | _, _ => (runWindows sq vbt spread slip strat data rest (i + 1)).2.1)
      ∧ ((runWindows sq vbt spread slip strat data (w :: rest) i).2.2
        = match okValue (run_backtest_period sq vbt spread slip strat data
              w.train_start w.train_end),
            okValue (run_backtest_period sq vbt spread slip strat data
              w.val_start w.val_end),
            okValue (run_backtest_period sq vbt spread slip strat data
              w.test_start w.test_end) with
          | some _, some _, some xm =>
              (i, xm) :: (runWindows sq vbt spread slip strat data rest (i + 1)).2.2
          | _, _, _ => (runWindows sq vbt spread slip strat data rest (i + 1)).2.2) := by
  cases ht : run_backtest_period sq vbt spread slip strat data w.train_start w.train_end with
  | error e => simp [runWindows, ht, okValue]
  | ok tm =>
    cases hv : run_backtest_period sq vbt spread slip strat data w.val_start w.val_end with
    | error e => simp [runWindows, ht, hv, okValue]
    | ok vm =>
      cases hx : run_backtest_period sq vbt spread slip strat data
          w.test_start w.test_end with
      | error e => simp [runWindows, ht, hv, hx, okValue]
      | ok xm => simp [runWindows, ht, hv, hx, okValue]

/-! ## Claim C9 -/

/-- Counterexample to C9 as stated: on one test-period result the aggregator
emits exactly eight entries — the means of only five of the nine scalar
metrics plus the three Sharpe stability statistics — and in particular no
mean of the volatility metric, although the claim demands the mean of each
scalar metric. -/
theorem c9_counterexample :
    calculate_aggregate_metrics sqZero [] [] [(0, pmZero)]
        = [("test_avg_sharpe", some 0), ("test_avg_return", some 0),
           ("test_avg_maxdd", some 0), ("test_avg_turnover", some 0),
           ("test_avg_beta", some 0), ("test_sharpe_std", some 0),
           ("test_min_sharpe", some 0), ("test_unstable_windows", some 1)]
      ∧ List.lookup "test_avg_volatility"
          (calculate_aggregate_metrics sqZero [] [] [(0, pmZero)]) = none :=
  ⟨by decide, by decide⟩

/-- Claim C9 (amended): for each period independently the aggregator emits
the means of the sharpe, total-return, max-drawdown, turnover and beta
metrics (not of volatility, trade count, win rate or profit factor), the
standard deviation and minimum of the Sharpe values, and the count of windows
with Sharpe below 3/10; a period with zero results is omitted entirely. -/
theorem c9_amended (sq : ℚ → ℚ) (tr vr te : List (Nat × PeriodMetrics)) (hne : te ≠ []) :
    calculate_aggregate_metrics sq tr vr te
        = aggForPeriod sq "train" tr ++ aggForPeriod sq "validation" vr
            ++ aggForPeriod sq "test" te
      ∧ (aggForPeriod sq "test" te).map Prod.fst
        = ["test_avg_sharpe", "test_avg_return", "test_avg_maxdd", "test_avg_turnover",
           "test_avg_beta", "test_sharpe_std", "test_min_sharpe", "test_unstable_windows"]
      ∧ (aggForPeriod sq "test" te).map Prod.snd
        = [some (meanQ (te.map fun r => r.2.sharpe)),
           npMean (te.map fun r => r.2.total_return),
           npMean (te.map fun r => r.2.max_drawdown),
           npMean (te.map fun r => r.2.turnover),
           npMean (te.map fun r => r.2.beta),
           some (sq (popVar (te.map fun r => r.2.sharpe))),
           npMinQ (te.map fun r => r.2.sharpe),
           some (((te.map fun r => r.2.sharpe).countP fun s => decide (s < 3 / 10) : ℕ) : ℚ)]
      ∧ aggForPeriod sq "test" ([] : List (Nat × PeriodMetrics)) = [] := by
  refine ⟨rfl, ?_, ?_, rfl⟩
  · cases te with
    | nil => exact absurd rfl hne
    | cons r rest => rfl
  · cases te with
    | nil => exact absurd rfl hne
    | cons r rest => rfl

/-- Witness for the amended C9 on one concrete test-period result. -/
theorem c9_amended_witness :
    calculate_aggregate_metrics sqZero [] [] [(0, pmZero)]
        = aggForPeriod sqZero "train" [] ++ aggForPeriod sqZero "validation" []
            ++ aggForPeriod sqZero "test" [(0, pmZero)]
      ∧ (aggForPeriod sqZero "test" [(0, pmZero)]).map Prod.fst
        = ["test_avg_sharpe", "test_avg_return", "test_avg_maxdd", "test_avg_turnover",
           "test_avg_beta", "test_sharpe_std", "test_min_sharpe", "test_unstable_windows"]
      ∧ (aggForPeriod sqZero "test" [(0, pmZero)]).map Prod.snd
        = [some (meanQ ([(0, pmZero)].map fun r => r.2.sharpe)),
           npMean ([(0, pmZero)].map fun r => r.2.total_return),
           npMean ([(0, pmZero)].map fun r => r.2.max_drawdown),
           npMean ([(0, pmZero)].map fun r => r.2.turnover),
           npMean ([(0, pmZero)].map fun r => r.2.beta),
           some (sqZero (popVar ([(0, pmZero)].map fun r => r.2.sharpe))),
           npMinQ ([(0, pmZero)].map fun r => r.2.sharpe),
           some ((([(0, pmZero)].map fun r => r.2.sharpe).countP
             fun s => decide (s < 3 / 10) : ℕ) : ℚ)]
      ∧ aggForPeriod sqZero "test" ([] : List (Nat × PeriodMetrics)) = [] :=
  c9_amended sqZero [] [] [(0, pmZero)] (by decide)

end Atlas
